import Mathlib

/-!
Shallow embedding of the running-coach core services:
`src/app/services/user_settings.py`, `src/app/services/cache.py`, and
`src/app/services/personal_records.py`.

Conventions: Python floats are embedded as rationals (ℚ) and Python ints as ℤ;
dictionary fields that may be absent are `Option`-valued, and Python's
`dict.get(key, default)` is embedded as `Option.getD`.  Python dicts used as
ordered key→value maps (the personal-records result) are embedded as
association lists in insertion order.  The file-based stores (cache, user
settings) are embedded as explicit state passing over a function
`key → Option contents`, with the wall clock passed in as an explicit
integer timestamp in seconds.
-/

namespace RunningCoach

/-- Truncation toward zero: the behaviour of Python's `int()` applied to a
real value, as in `int(max_hr * 0.50)` in `_calculate_zones`. -/
def pytrunc (q : ℚ) : Int := if 0 ≤ q then ⌊q⌋ else ⌈q⌉

/-- One heart-rate zone dict `{'min': ..., 'max': ..., 'name': ...}`. -/
structure Zone where
  min : Int
  max : Int
  name : String
deriving DecidableEq

/-- The dict of six zones returned by `UserSettingsService._calculate_zones`. -/
structure Zones where
  zone1 : Zone
  zone2 : Zone
  zone3 : Zone
  zone4 : Zone
  zone5 : Zone
  zone6 : Zone
deriving DecidableEq

/-- `UserSettingsService._calculate_zones` (user_settings.py, lines 62-72). -/
def calculate_zones (max_hr : Int) : Zones :=
  { zone1 := { min := pytrunc ((max_hr : ℚ) * 0.50), max := pytrunc ((max_hr : ℚ) * 0.60), name := "Recovery" }
    zone2 := { min := pytrunc ((max_hr : ℚ) * 0.60), max := pytrunc ((max_hr : ℚ) * 0.70), name := "Aerobic" }
    zone3 := { min := pytrunc ((max_hr : ℚ) * 0.70), max := pytrunc ((max_hr : ℚ) * 0.80), name := "Tempo" }
    zone4 := { min := pytrunc ((max_hr : ℚ) * 0.80), max := pytrunc ((max_hr : ℚ) * 0.90), name := "Threshold" }
    zone5 := { min := pytrunc ((max_hr : ℚ) * 0.90), max := pytrunc ((max_hr : ℚ) * 0.95), name := "VO2 Max" }
    zone6 := { min := pytrunc ((max_hr : ℚ) * 0.95), max := max_hr, name := "Anaerobic" } }

/-- A persisted user-settings JSON document.  The outer `Option` on each field
records whether the key is present in the dict (`'max_hr' in settings`); the
inner `Option` on the age fields records a JSON `null` value. -/
structure Settings where
  max_hr : Option Int
  fitness_age : Option (Option Int)
  actual_age : Option (Option Int)
  hr_zones : Option Zones
deriving DecidableEq

/-- `UserSettingsService._default_settings` (user_settings.py, lines 74-82). -/
def default_settings : Settings :=
  { max_hr := some 190
    fitness_age := some none
    actual_age := some none
    hr_zones := some (calculate_zones 190) }

/-- The user-settings persistence medium: one JSON document per user id. -/
def UserStore : Type := String → Option Settings

/-- `UserSettingsService.get_settings`: the stored document, or the default
settings when no file exists for this user. -/
def get_settings (store : UserStore) (user_id : String) : Settings :=
  (store user_id).getD default_settings

/-- `UserSettingsService.save_settings`: overwrite this user's document. -/
def save_settings (store : UserStore) (user_id : String) (settings : Settings) : UserStore :=
  fun u => if u = user_id then some settings else store u

/-- `UserSettingsService.update_hr_params` (user_settings.py, lines 41-60):
apply the supplied optional parameters, then recompute `hr_zones` whenever
`max_hr` is present in the resulting settings, then save.  Returns the
settings it saved together with the new store state. -/
def update_hr_params (store : UserStore) (user_id : String)
    (max_hr : Option Int) (fitness_age : Option Int) (actual_age : Option Int) :
    Settings × UserStore :=
  let s0 := get_settings store user_id
  let s1 := match max_hr with
    | some m => { s0 with max_hr := some m }
    | none => s0
  let s2 := match fitness_age with
    | some f => { s1 with fitness_age := some (some f) }
    | none => s1
  let s3 := match actual_age with
    | some a => { s2 with actual_age := some (some a) }
    | none => s2
  let s4 := match s3.max_hr with
    | some m => { s3 with hr_zones := some (calculate_zones m) }
    | none => s3
  (s4, save_settings store user_id s4)

/-- Contents of one cache file, split by how `CacheService.get` reacts to it:
`entry` is a well-formed document (`cached_at` a valid ISO string);
`corrupt` is a document whose read raises one of the exceptions the source
catches (`json.JSONDecodeError`, `KeyError`, `ValueError` - unparsable JSON,
a missing `cached_at` key, or an unparsable `cached_at` string);
`badCachedAt` is a document that parses as JSON but whose `cached_at` value
is not a string (e.g. a number), so `datetime.fromisoformat` raises
`TypeError`, which the except tuple at cache.py line 51 does not catch. -/
inductive Stored (α : Type) where
  | entry (cached_at : Int) (data : α)
  | corrupt
  | badCachedAt
deriving DecidableEq

/-- The cache persistence medium: one file per key, or no file. -/
def CacheState (α : Type) : Type := String → Option (Stored α)

/-- `CacheService.delete` (cache.py, lines 74-78): remove the file if present. -/
def cache_delete {α : Type} (st : CacheState α) (key : String) : CacheState α :=
  fun k => if k = key then none else st k

/-- `CacheService.get` (cache.py, lines 20-54) at wall-clock time `now`
(seconds): returns the payload when a well-formed entry exists and
`now ≤ cached_at + max_age_hours * 3600`; an expired or caught-corrupt entry
is deleted and the read misses.  On a `badCachedAt` document the uncaught
`TypeError` from `fromisoformat` propagates, modelled as `Except.error ()`;
it is raised before any `unlink`, so the caller's file state is unchanged.
On success, returns the read result and the new state. -/
def cache_get {α : Type} (now : Int) (st : CacheState α) (key : String)
    (max_age_hours : Int) : Except Unit (Option α × CacheState α) :=
  match st key with
  | none => Except.ok (none, st)
  | some (Stored.entry cached_at data) =>
    let expires_at := cached_at + max_age_hours * 3600
    if expires_at < now then Except.ok (none, cache_delete st key)
    else Except.ok (some data, st)
  | some Stored.corrupt => Except.ok (none, cache_delete st key)
  | some Stored.badCachedAt => Except.error ()

/-- `CacheService.set` (cache.py, lines 56-72): overwrite unconditionally,
stamping the current time. -/
def cache_set {α : Type} (now : Int) (st : CacheState α) (key : String)
    (data : α) : CacheState α :=
  fun k => if k = key then some (Stored.entry now data) else st k

/-- An activity dict from the Strava API; every field may be absent. -/
structure Activity where
  type : Option String := none
  distance : Option ℚ := none
  moving_time : Option Int := none
  start_date_local : Option String := none
  id : Option Int := none
  name : Option String := none
deriving DecidableEq

/-- A personal-record dict produced by `calculate_personal_records`. -/
structure PRecord where
  time_seconds : Int
  time_formatted : String
  pace : String
  date : String
  activity_id : Option Int
  activity_name : Option String
deriving DecidableEq

/-- A best-effort dict nested in a detailed activity; every field may be absent. -/
structure Effort where
  name : Option String := none
  moving_time : Option Int := none
  distance : Option ℚ := none
  start_date_local : Option String := none
  activity_id : Option Int := none
deriving DecidableEq

/-- A personal-record dict produced by `calculate_personal_records_from_best_efforts`. -/
structure BERecord where
  time_seconds : Int
  time_formatted : String
  pace : String
  date : String
  activity_id : Option Int
  effort_name : String
deriving DecidableEq

/-- `PersonalRecordsService.DISTANCES` in insertion order (personal_records.py,
lines 9-15). -/
def DISTANCES : List (String × ℚ) :=
  [("1km", 1000), ("5km", 5000), ("10km", 10000),
   ("half_marathon", 21097.5), ("marathon", 42195)]

/-- `PersonalRecordsService.DISTANCE_TOLERANCE` (personal_records.py, line 18). -/
def DISTANCE_TOLERANCE : ℚ := 0.02

/-- `PersonalRecordsService.DISTANCE_MAPPING` in insertion order
(personal_records.py, lines 21-27). -/
def DISTANCE_MAPPING : List (String × String) :=
  [("1k", "1km"), ("5k", "5km"), ("10k", "10km"),
   ("Half-Marathon", "half_marathon"), ("Marathon", "marathon")]

/-- Python's `f"{n:02d}"`: zero-pad a single nonnegative digit to two. -/
def pad2 (n : Int) : String :=
  if 0 ≤ n ∧ n < 10 then "0" ++ toString n else toString n

/-- `PersonalRecordsService._format_time` (personal_records.py, lines 126-135).
Python's `//` and `%` on ints are floor division and floor modulus, i.e.
`Int.fdiv` and `Int.fmod`. -/
def format_time (seconds : Int) : String :=
  let hours := Int.fdiv seconds 3600
  let minutes := Int.fdiv (Int.fmod seconds 3600) 60
  let secs := Int.fmod seconds 60
  if 0 < hours then toString hours ++ ":" ++ pad2 minutes ++ ":" ++ pad2 secs
  else toString minutes ++ ":" ++ pad2 secs

/-- `PersonalRecordsService._calculate_pace` (personal_records.py, lines
137-146).  `pace_seconds % 60` in Python has the sign of the divisor, so it
equals `pace_seconds - 60 * ⌊pace_seconds / 60⌋`, and `int()` of a value in
`[0, 60)` is its floor. -/
def calculate_pace (time_seconds : Int) (distance_meters : ℚ) : String :=
  if distance_meters = 0 then "N/A"
  else
    let pace_seconds : ℚ := ((time_seconds : ℚ) / distance_meters) * 1000
    let pace_minutes : Int := ⌊pace_seconds / 60⌋
    let pace_secs : Int := ⌊pace_seconds - 60 * ⌊pace_seconds / 60⌋⌋
    toString pace_minutes ++ ":" ++ pad2 pace_secs ++ "/km"

/-- Python's `s.split('T')[0]`: the prefix of `s` before the first `'T'`. -/
def dateOf (s : String) : String :=
  String.mk (s.toList.takeWhile (fun c => c ≠ 'T'))

/-- The per-distance match test of `calculate_personal_records`
(personal_records.py, lines 53-60): `distance_diff <= max_diff and
moving_time > 0`, with `activity.get('distance', 0)` and
`activity.get('moving_time', 0)`. -/
def matchesA (target : ℚ) (a : Activity) : Prop :=
  |a.distance.getD 0 - target| ≤ target * DISTANCE_TOLERANCE ∧
    0 < a.moving_time.getD 0

instance (target : ℚ) (a : Activity) : Decidable (matchesA target a) := by
  unfold matchesA; infer_instance

/-- One iteration of the inner loop of `calculate_personal_records`
(personal_records.py, lines 52-64): the accumulator is the pair
`(best_time, best_activity)`, or `none` when `best_time is None`. -/
def stepBest (target : ℚ) (acc : Option (Int × Activity)) (activity : Activity) :
    Option (Int × Activity) :=
  if matchesA target activity then
    match acc with
    | none => some (activity.moving_time.getD 0, activity)
    | some best =>
      if activity.moving_time.getD 0 < best.1 then
        some (activity.moving_time.getD 0, activity)
      else
        some best
  else acc

/-- The inner loop of `calculate_personal_records` over the run activities. -/
def findBest (target : ℚ) (run_activities : List Activity) :
    Option (Int × Activity) :=
  run_activities.foldl (stepBest target) none

/-- The record built for one distance (personal_records.py, lines 66-74).
The source indexes `best_activity['distance']` directly — a `KeyError` when
the field is absent — so the construction is embedded in `Except`, erring
exactly when that index would raise. -/
def recordFor (target : ℚ) (run_activities : List Activity) :
    Except Unit (Option PRecord) :=
  match findBest target run_activities with
  | none => Except.ok none
  | some best =>
    match best.2.distance with
    | none => Except.error ()
    | some d => Except.ok (some
      { time_seconds := best.1
        time_formatted := format_time best.1
        pace := calculate_pace best.1 d
        date := dateOf (best.2.start_date_local.getD "")
        activity_id := best.2.id
        activity_name := best.2.name })

/-- The outer loop of `calculate_personal_records` over the canonical
distances, building the result dict in insertion order. -/
def buildRecords (run_activities : List Activity) :
    List (String × ℚ) → Except Unit (List (String × Option PRecord))
  | [] => Except.ok []
  | (k, t) :: rest =>
    match recordFor t run_activities, buildRecords run_activities rest with
    | Except.ok r, Except.ok res => Except.ok ((k, r) :: res)
    | Except.error e, _ => Except.error e
    | _, Except.error e => Except.error e

/-- The run filter `a.get('type') == 'Run'` (personal_records.py, line 46). -/
def isRun (a : Activity) : Bool := a.type == some "Run"

/-- `PersonalRecordsService.calculate_personal_records` (personal_records.py,
lines 29-76).  (The source's `if best_activity:` truthiness test coincides
with the `none`/`some` distinction here: a qualifying activity dict is
nonempty because it holds a `moving_time` key.) -/
def calculate_personal_records (activities : List Activity) :
    Except Unit (List (String × Option PRecord)) :=
  buildRecords (activities.filter isRun) DISTANCES

/-- Association-list lookup in a result dict (first matching key wins). -/
def lookupKey {β : Type} : List (String × β) → String → Option β
  | [], _ => none
  | (k, v) :: rest, key => if key = k then some v else lookupKey rest key

/-- In-place assignment `personal_records[distance_key] = ...` on a dict whose
key set already contains `distance_key` (every mapped key is initialized
before the loop, so assignment never adds a key). -/
def setKey {β : Type} (m : List (String × β)) (k : String) (v : β) :
    List (String × β) :=
  m.map (fun p => if p.1 = k then (k, v) else p)

/-- `DISTANCE_MAPPING.get(effort.get('name', ''))`. -/
def effortKey (effort : Effort) : Option String :=
  lookupKey DISTANCE_MAPPING (effort.name.getD "")

/-- The record dict built from one winning effort (personal_records.py,
lines 115-122). -/
def mkEffortRecord (effort_name : String) (moving_time : Int) (effort : Effort) :
    BERecord :=
  { time_seconds := moving_time
    time_formatted := format_time moving_time
    pace := calculate_pace moving_time (effort.distance.getD 0)
    date := match effort.start_date_local with
      | some s => if s = "" then "" else dateOf s
      | none => ""
    activity_id := effort.activity_id
    effort_name := effort_name }

/-- One iteration of the loop of `calculate_personal_records_from_best_efforts`
(personal_records.py, lines 101-122).  The source reads
`personal_records[distance_key]` by direct index; the key is always present
because every value of `DISTANCE_MAPPING` is initialized before the loop, so
the `none` lookup branch below is unreachable. -/
def stepEffort (m : List (String × Option BERecord)) (effort : Effort) :
    List (String × Option BERecord) :=
  match effortKey effort with
  | none => m
  | some distance_key =>
    if 0 < effort.moving_time.getD 0 then
      match lookupKey m distance_key with
      | some (some current_best) =>
        if effort.moving_time.getD 0 < current_best.time_seconds then
          setKey m distance_key
            (some (mkEffortRecord (effort.name.getD "") (effort.moving_time.getD 0) effort))
        else m
      | some none =>
        setKey m distance_key
          (some (mkEffortRecord (effort.name.getD "") (effort.moving_time.getD 0) effort))
      | none => m
    else m

/-- The dict initialization over `DISTANCE_MAPPING.values()` (personal_records.py,
lines 88-92). -/
def initRecords : List (String × Option BERecord) :=
  DISTANCE_MAPPING.map (fun p => (p.2, none))

/-- The flattening loop (personal_records.py, lines 94-98); `extend` of an
empty list is a no-op, so the `if best_efforts:` truthiness guard is identity. -/
def flattenGroups (best_efforts_by_activity : List (List Effort)) : List Effort :=
  best_efforts_by_activity.foldl (fun acc l => acc ++ l) []

/-- `PersonalRecordsService.calculate_personal_records_from_best_efforts`
(personal_records.py, lines 78-124). -/
def calculate_personal_records_from_best_efforts
    (best_efforts_by_activity : List (List Effort)) :
    List (String × Option BERecord) :=
  (flattenGroups best_efforts_by_activity).foldl stepEffort initRecords

/-- A qualifying activity for a given target: a run whose distance is within
tolerance and whose moving time is positive. -/
def qualifies (target : ℚ) (a : Activity) : Prop :=
  a.type = some "Run" ∧ matchesA target a

instance (target : ℚ) (a : Activity) : Decidable (qualifies target a) := by
  unfold qualifies; infer_instance

/-- A qualifying best effort for a given canonical key: its label maps to the
key and its moving time is positive. -/
def qualEffort (k : String) (e : Effort) : Prop :=
  effortKey e = some k ∧ 0 < e.moving_time.getD 0

instance (k : String) (e : Effort) : Decidable (qualEffort k e) := by
  unfold qualEffort; infer_instance

/-- An effort that survives both exclusion rules of
`calculate_personal_records_from_best_efforts`: a recognized label and a
positive moving time. -/
def keepEffort (e : Effort) : Bool :=
  (effortKey e).isSome && decide (0 < e.moving_time.getD 0)

/-- The per-key best times of `calculate_personal_records`: the data of the
output that depends only on the multiset of qualifying activities. -/
def bestTimes (activities : List Activity) : List (String × Option Int) :=
  DISTANCES.map (fun p => (p.1, (findBest p.2 (activities.filter isRun)).map Prod.fst))

/-- Concrete input for witnesses: a 5 km run. -/
def wAct5k : Activity :=
  { type := some "Run", distance := some 5000, moving_time := some 1200 }

/-- The output of `calculate_personal_records [wAct5k]`. -/
def wRes5 : List (String × Option PRecord) :=
  [("1km", none),
   ("5km", some { time_seconds := 1200, time_formatted := "20:00",
                  pace := "4:00/km", date := "", activity_id := none,
                  activity_name := none }),
   ("10km", none), ("half_marathon", none), ("marathon", none)]

/-- Two 1 km runs tied on moving time, distinguished only by name. -/
def wActTieA : Activity :=
  { type := some "Run", distance := some 1000, moving_time := some 300,
    name := some "A" }

/-- See `wActTieA`. -/
def wActTieB : Activity :=
  { type := some "Run", distance := some 1000, moving_time := some 300,
    name := some "B" }

/-- The 1 km record produced when `wActTieA` is encountered first. -/
def wTieRec (nm : String) : PRecord :=
  { time_seconds := 300, time_formatted := "5:00", pace := "5:00/km",
    date := "", activity_id := none, activity_name := some nm }

/-- Output of `calculate_personal_records [wActTieA, wActTieB]`. -/
def wResTie (nm : String) : List (String × Option PRecord) :=
  [("1km", some (wTieRec nm)), ("5km", none), ("10km", none),
   ("half_marathon", none), ("marathon", none)]

/-- Concrete input for best-effort witnesses: a labelled 5k split. -/
def wEff5k : Effort :=
  { name := some "5k", moving_time := some 1500, distance := some 5000 }

/-- The output of `calculate_personal_records []`. -/
def wResEmpty : List (String × Option PRecord) :=
  [("1km", none), ("5km", none), ("10km", none),
   ("half_marathon", none), ("marathon", none)]

/-- A cache state holding, under every key, a JSON document that parses but
whose `cached_at` is not a string - the file `{"cached_at": 123, "data": 5}`
for example. -/
def wBadStore : CacheState Nat := fun _ => some Stored.badCachedAt

end RunningCoach

namespace RunningCoach

/-- Helper: `cache_get` raises (the uncaught `TypeError` from
`datetime.fromisoformat`) exactly when the key holds a JSON-parsable document
whose `cached_at` is not a string; every other read returns. -/
lemma cache_get_error_iff (α : Type) (now : Int) (st : CacheState α) (key : String)
    (mah : Int) :
    cache_get now st key mah = Except.error () ↔ st key = some Stored.badCachedAt := by
  cases hst : st key with
  | none => simp [cache_get, hst]
  | some s =>
    cases s with
    | entry t d =>
      by_cases hexp : t + mah * 3600 < now
      · simp [cache_get, hst, hexp]
      · simp [cache_get, hst, hexp]
    | corrupt => simp [cache_get, hst]
    | badCachedAt => simp [cache_get, hst]

/-- Helper: the hit/miss contract of `cache_get` on the paths where it
returns: a payload comes back iff a well-formed entry exists whose age
satisfies `now - cached_at ≤ max_age_hours` hours (and then the state is
unchanged), and whenever the read returns a miss the key holds no entry
afterwards. -/
lemma cache_get_ok_contract (α : Type) (now : Int) (st : CacheState α) (key : String) (mah : Int) :
    (∀ v st2, cache_get now st key mah = Except.ok (some v, st2) ↔
        ((∃ t, st key = some (Stored.entry t v) ∧ now - t ≤ mah * 3600) ∧ st2 = st)) ∧
    (∀ st2, cache_get now st key mah = Except.ok (none, st2) → st2 key = none) := by
  cases hst : st key with
  | none =>
    constructor
    · intro v st2
      simp [cache_get, hst]
    · intro st2 h2
      simp [cache_get, hst] at h2
      rw [← h2]
      exact hst
  | some s =>
    cases s with
    | entry t d =>
      by_cases hexp : t + mah * 3600 < now
      · constructor
        · intro v st2
          simp [cache_get, hst, hexp]
          intro _ h3 _
          omega
        · intro st2 h2
          simp [cache_get, hst, hexp] at h2
          rw [← h2]
          simp [cache_delete]
      · constructor
        · intro v st2
          simp [cache_get, hst, hexp]
          constructor
          · rintro ⟨rfl, rfl⟩
            exact ⟨⟨t, ⟨rfl, rfl⟩, by omega⟩, rfl⟩
          · rintro ⟨⟨t2, ⟨rfl, hd⟩, -⟩, rfl⟩
            exact ⟨hd, rfl⟩
        · intro st2 h2
          simp [cache_get, hst, hexp] at h2
    | corrupt =>
      constructor
      · intro v st2
        simp [cache_get, hst]
      · intro st2 h2
        simp [cache_get, hst] at h2
        rw [← h2]
        simp [cache_delete]
    | badCachedAt =>
      constructor
      · intro v st2
        simp [cache_get, hst]
      · intro st2 h2
        simp [cache_get, hst] at h2

/-- C4 (code bug): on a cache file that parses as JSON but whose `cached_at`
is not a string, `get` raises the uncaught `TypeError` from
`datetime.fromisoformat` instead of deleting the entry and returning absent,
and the file is left in place - contradicting the claimed self-healing
never-raising contract for malformed `cached_at`.  Evaluated here at a store
holding such a document under key "k". -/
theorem cache_get_type_error :
    cache_get 0 wBadStore "k" 24 = Except.error () ∧
      wBadStore "k" = some Stored.badCachedAt :=
  ⟨rfl, rfl⟩

/-- C5: `cache_set` immediately followed by `cache_get` with
`max_age_hours = 1` returns the value just stored, and `cache_delete` on an
absent key is a no-op (so deleting after an expiry-triggered removal succeeds
silently). -/
theorem cache_set_get_roundtrip (α : Type) (st : CacheState α) (key : String)
    (v : α) (now : Int) (st2 : CacheState α) (h : st2 key = none) :
    cache_get now (cache_set now st key v) key 1 =
        Except.ok (some v, cache_set now st key v) ∧
      cache_delete st2 key = st2 := by
  constructor
  · have hno : ¬ (now + 1 * 3600 < now) := by omega
    simp [cache_get, cache_set, hno]
  · funext k
    by_cases hk : k = key
    · subst hk; simp [cache_delete, h.symm]
    · simp [cache_delete, hk]

/-- C5 (witness): the theorem evaluated on an empty store at time 0. -/
theorem cache_set_get_roundtrip_witness :
    cache_get 0 (cache_set 0 (fun _ => none : CacheState Nat) "k" 7) "k" 1 =
        Except.ok (some 7, cache_set 0 (fun _ => none : CacheState Nat) "k" 7) ∧
      cache_delete (fun _ => none : CacheState Nat) "k" = (fun _ => none) :=
  cache_set_get_roundtrip Nat (fun _ => none) "k" 7 0 (fun _ => none) rfl

lemma get_save (store : UserStore) (uid : String) (s : Settings) :
    get_settings (save_settings store uid s) uid = s := by
  simp [get_settings, save_settings]

/-- C6: `update_hr_params` changes exactly the supplied fields among
`max_hr`, `fitness_age`, `actual_age` (absent parameters leave the stored
field untouched); afterwards, whenever `max_hr` is present - newly or
previously - the stored `hr_zones` equal `calculate_zones` of the stored
`max_hr`, recomputed on every update, and reading the profile back yields the
saved settings. -/
theorem update_hr_params_contract (store : UserStore) (user_id : String)
    (max_hr fitness_age actual_age : Option Int) :
    get_settings (update_hr_params store user_id max_hr fitness_age actual_age).2 user_id =
        (update_hr_params store user_id max_hr fitness_age actual_age).1 ∧
    (max_hr = none →
      (update_hr_params store user_id max_hr fitness_age actual_age).1.max_hr =
        (get_settings store user_id).max_hr) ∧
    (∀ x, max_hr = some x →
      (update_hr_params store user_id max_hr fitness_age actual_age).1.max_hr = some x) ∧
    (fitness_age = none →
      (update_hr_params store user_id max_hr fitness_age actual_age).1.fitness_age =
        (get_settings store user_id).fitness_age) ∧
    (∀ x, fitness_age = some x →
      (update_hr_params store user_id max_hr fitness_age actual_age).1.fitness_age = some (some x)) ∧
    (actual_age = none →
      (update_hr_params store user_id max_hr fitness_age actual_age).1.actual_age =
        (get_settings store user_id).actual_age) ∧
    (∀ x, actual_age = some x →
      (update_hr_params store user_id max_hr fitness_age actual_age).1.actual_age = some (some x)) ∧
    (∀ x, (update_hr_params store user_id max_hr fitness_age actual_age).1.max_hr = some x →
      (update_hr_params store user_id max_hr fitness_age actual_age).1.hr_zones =
        some (calculate_zones x)) ∧
    ((update_hr_params store user_id max_hr fitness_age actual_age).1.max_hr = none →
      (update_hr_params store user_id max_hr fitness_age actual_age).1.hr_zones =
        (get_settings store user_id).hr_zones) := by
  cases max_hr with
  | some m =>
    cases fitness_age <;> cases actual_age <;>
      simp [update_hr_params, get_save]
  | none =>
    cases h0 : (get_settings store user_id).max_hr with
    | some m =>
      cases fitness_age <;> cases actual_age <;>
        simp [update_hr_params, get_save, h0]
    | none =>
      cases fitness_age <;> cases actual_age <;>
        simp [update_hr_params, get_save, h0]



lemma pytrunc_of_nonneg (q : ℚ) (h : 0 ≤ q) : pytrunc q = ⌊q⌋ := if_pos h

/-- C3 (amended): for every nonnegative `max_hr` the six zones are, in
ascending band order Recovery..Anaerobic, `min = ⌊max_hr * lowPct⌋` and
`max = ⌊max_hr * highPct⌋` over the fixed bands 0.50/0.60/0.70/0.80/0.90/0.95,
except the final zone ceiling which is `max_hr` itself.  (For negative
`max_hr` the code truncates toward zero, so the floor form fails there.) -/
theorem zones_floor_of_nonneg (max_hr : Int) (h : 0 ≤ max_hr) :
    calculate_zones max_hr =
      { zone1 := { min := ⌊(max_hr : ℚ) * 0.50⌋, max := ⌊(max_hr : ℚ) * 0.60⌋, name := "Recovery" }
        zone2 := { min := ⌊(max_hr : ℚ) * 0.60⌋, max := ⌊(max_hr : ℚ) * 0.70⌋, name := "Aerobic" }
        zone3 := { min := ⌊(max_hr : ℚ) * 0.70⌋, max := ⌊(max_hr : ℚ) * 0.80⌋, name := "Tempo" }
        zone4 := { min := ⌊(max_hr : ℚ) * 0.80⌋, max := ⌊(max_hr : ℚ) * 0.90⌋, name := "Threshold" }
        zone5 := { min := ⌊(max_hr : ℚ) * 0.90⌋, max := ⌊(max_hr : ℚ) * 0.95⌋, name := "VO2 Max" }
        zone6 := { min := ⌊(max_hr : ℚ) * 0.95⌋, max := max_hr, name := "Anaerobic" } } := by
  have hq : (0:ℚ) ≤ (max_hr : ℚ) := by exact_mod_cast h
  have t : ∀ c : ℚ, 0 ≤ c → pytrunc ((max_hr : ℚ) * c) = ⌊(max_hr : ℚ) * c⌋ :=
    fun c hc => pytrunc_of_nonneg _ (mul_nonneg hq hc)
  unfold calculate_zones
  rw [t 0.50 (by norm_num), t 0.60 (by norm_num), t 0.70 (by norm_num),
      t 0.80 (by norm_num), t 0.90 (by norm_num), t 0.95 (by norm_num)]

/-- C3 (witness): evaluating the amended theorem at `max_hr = 200` gives the
cited values, Recovery 100-120 and Anaerobic 190-200. -/
theorem zones_floor_witness :
    calculate_zones 200 =
      { zone1 := ⟨100, 120, "Recovery"⟩, zone2 := ⟨120, 140, "Aerobic"⟩,
        zone3 := ⟨140, 160, "Tempo"⟩, zone4 := ⟨160, 180, "Threshold"⟩,
        zone5 := ⟨180, 190, "VO2 Max"⟩, zone6 := ⟨190, 200, "Anaerobic"⟩ } := by
  rw [zones_floor_of_nonneg 200 (by decide)]
  with_unfolding_all decide

/-- C3 (counterexample): at `max_hr = -1` the code gives
`zone1.min = int(-0.5) = 0`, while the claimed `floor(-1 * 0.50)` is `-1`. -/
theorem zones_trunc_counterexample :
    (calculate_zones (-1)).zone1.min = 0 ∧ ⌊((-1 : Int) : ℚ) * 0.50⌋ = -1 ∧ (0 : Int) ≠ -1 :=
  ⟨by with_unfolding_all decide, by with_unfolding_all decide, by decide⟩


lemma stepBest_of_not_matches (target : ℚ) (acc : Option (Int × Activity)) (b : Activity)
    (h : ¬ matchesA target b) : stepBest target acc b = acc := by
  unfold stepBest
  rw [if_neg h]

lemma stepBest_matches_none (target : ℚ) (b : Activity) (h : matchesA target b) :
    stepBest target none b = some (b.moving_time.getD 0, b) := by
  unfold stepBest
  rw [if_pos h]

lemma stepBest_matches_some (target : ℚ) (p : Int × Activity) (b : Activity)
    (h : matchesA target b) :
    stepBest target (some p) b =
      if b.moving_time.getD 0 < p.1 then some (b.moving_time.getD 0, b) else some p := by
  unfold stepBest
  rw [if_pos h]

lemma stepBest_of_matches (target : ℚ) (acc : Option (Int × Activity)) (b : Activity)
    (h : matchesA target b) :
    ∃ bt0 ba0, stepBest target acc b = some (bt0, ba0) ∧
      bt0 ≤ b.moving_time.getD 0 ∧
      (∀ bt' ba', acc = some (bt', ba') → bt0 ≤ bt') ∧
      (acc = some (bt0, ba0) ∨ (ba0 = b ∧ bt0 = b.moving_time.getD 0)) := by
  cases acc with
  | none =>
    rw [stepBest_matches_none target b h]
    refine ⟨_, _, rfl, le_refl _, ?_, Or.inr ⟨rfl, rfl⟩⟩
    intro _ _ h'
    cases h'
  | some p =>
    rw [stepBest_matches_some target p b h]
    by_cases hlt : b.moving_time.getD 0 < p.1
    · rw [if_pos hlt]
      refine ⟨_, _, rfl, le_refl _, ?_, Or.inr ⟨rfl, rfl⟩⟩
      intro bt'' ba'' h''
      injection h'' with h''
      subst h''
      exact le_of_lt hlt
    · rw [if_neg hlt]
      refine ⟨p.1, p.2, rfl, not_lt.mp hlt, ?_, Or.inl rfl⟩
      intro bt'' ba'' h''
      injection h'' with h''
      subst h''
      exact le_refl _

lemma foldBest_none (target : ℚ) :
    ∀ (l : List Activity) (acc : Option (Int × Activity)),
      l.foldl (stepBest target) acc = none ↔
        (acc = none ∧ ∀ a ∈ l, ¬ matchesA target a) := by
  intro l
  induction l with
  | nil => intro acc; simp
  | cons b t ih =>
    intro acc
    rw [List.foldl_cons, ih]
    constructor
    · rintro ⟨hstep, hrest⟩
      by_cases hb : matchesA target b
      · obtain ⟨bt0, ba0, heq, -⟩ := stepBest_of_matches target acc b hb
        rw [heq] at hstep
        cases hstep
      · rw [stepBest_of_not_matches target acc b hb] at hstep
        refine ⟨hstep, ?_⟩
        intro a ha
        rcases List.mem_cons.mp ha with rfl | h'
        · exact hb
        · exact hrest a h'
    · rintro ⟨hacc, hall⟩
      have hb : ¬ matchesA target b := hall b (List.mem_cons_self _ _)
      rw [stepBest_of_not_matches target acc b hb]
      exact ⟨hacc, fun a ha => hall a (List.mem_cons_of_mem _ ha)⟩

lemma foldBest_min (target : ℚ) :
    ∀ (l : List Activity) (acc : Option (Int × Activity)) (bt : Int) (ba : Activity),
      l.foldl (stepBest target) acc = some (bt, ba) →
      (acc = some (bt, ba) ∨ (ba ∈ l ∧ matchesA target ba ∧ ba.moving_time.getD 0 = bt)) ∧
      (∀ b ∈ l, matchesA target b → bt ≤ b.moving_time.getD 0) ∧
      (∀ bt' ba', acc = some (bt', ba') → bt ≤ bt') := by
  intro l
  induction l with
  | nil =>
    intro acc bt ba h
    simp only [List.foldl_nil] at h
    refine ⟨Or.inl h, by simp, ?_⟩
    intro bt' ba' h'
    rw [h] at h'
    injection h' with h'
    cases h'
    exact le_refl _
  | cons b t ih =>
    intro acc bt ba h
    rw [List.foldl_cons] at h
    by_cases hb : matchesA target b
    · obtain ⟨bt0, ba0, heq, hle0, haccle, hor⟩ := stepBest_of_matches target acc b hb
      rw [heq] at h
      obtain ⟨horig, hbound, haccb⟩ := ih (some (bt0, ba0)) bt ba h
      have hbtle : bt ≤ bt0 := haccb bt0 ba0 rfl
      refine ⟨?_, ?_, ?_⟩
      · rcases horig with h' | ⟨hm, hma, hmt⟩
        · injection h' with h'
          cases h'
          rcases hor with hacc | ⟨hb1, hb2⟩
          · exact Or.inl hacc
          · subst hb1
            subst hb2
            exact Or.inr ⟨List.mem_cons_self _ _, hb, rfl⟩
        · exact Or.inr ⟨List.mem_cons_of_mem _ hm, hma, hmt⟩
      · intro c hc hmc
        rcases List.mem_cons.mp hc with rfl | hct
        · exact le_trans hbtle hle0
        · exact hbound c hct hmc
      · intro bt' ba' hacc
        exact le_trans hbtle (haccle bt' ba' hacc)
    · rw [stepBest_of_not_matches target acc b hb] at h
      obtain ⟨horig, hbound, haccb⟩ := ih acc bt ba h
      refine ⟨?_, ?_, haccb⟩
      · rcases horig with h' | ⟨hm, hma, hmt⟩
        · exact Or.inl h'
        · exact Or.inr ⟨List.mem_cons_of_mem _ hm, hma, hmt⟩
      · intro c hc hmc
        rcases List.mem_cons.mp hc with rfl | hct
        · exact absurd hmc hb
        · exact hbound c hct hmc



lemma findBest_none_iff (target : ℚ) (runs : List Activity) :
    findBest target runs = none ↔ ∀ a ∈ runs, ¬ matchesA target a := by
  unfold findBest
  rw [foldBest_none]
  simp

lemma findBest_some_spec (target : ℚ) (runs : List Activity) (bt : Int) (ba : Activity)
    (h : findBest target runs = some (bt, ba)) :
    ba ∈ runs ∧ matchesA target ba ∧ ba.moving_time.getD 0 = bt ∧
      ∀ b ∈ runs, matchesA target b → bt ≤ b.moving_time.getD 0 := by
  obtain ⟨horig, hbound, -⟩ := foldBest_min target runs none bt ba h
  rcases horig with h' | ⟨hm, hma, hmt⟩
  · cases h'
  · exact ⟨hm, hma, hmt, hbound⟩

lemma DISTANCES_pos : ∀ p ∈ DISTANCES, (0:ℚ) < p.2 := by
  with_unfolding_all decide

lemma matchesA_distance_isSome (target : ℚ) (ht : 0 < target) (a : Activity)
    (h : matchesA target a) : ∃ d, a.distance = some d := by
  cases hd : a.distance with
  | some d => exact ⟨d, rfl⟩
  | none =>
    exfalso
    obtain ⟨habs, -⟩ := h
    rw [hd] at habs
    simp only [Option.getD, zero_sub, abs_neg] at habs
    rw [abs_of_pos ht] at habs
    rw [DISTANCE_TOLERANCE] at habs
    nlinarith

lemma recordFor_eq_none (target : ℚ) (runs : List Activity)
    (h : findBest target runs = none) : recordFor target runs = Except.ok none := by
  unfold recordFor
  rw [h]

lemma recordFor_eq_error (target : ℚ) (runs : List Activity) (bt : Int) (ba : Activity)
    (h : findBest target runs = some (bt, ba)) (hd : ba.distance = none) :
    recordFor target runs = Except.error () := by
  unfold recordFor
  rw [h]
  simp only [hd]

lemma recordFor_eq_rec (target : ℚ) (runs : List Activity) (bt : Int) (ba : Activity)
    (d : ℚ) (h : findBest target runs = some (bt, ba)) (hd : ba.distance = some d) :
    recordFor target runs = Except.ok (some
      { time_seconds := bt
        time_formatted := format_time bt
        pace := calculate_pace bt d
        date := dateOf (ba.start_date_local.getD "")
        activity_id := ba.id
        activity_name := ba.name }) := by
  unfold recordFor
  rw [h]
  simp only [hd]

lemma recordFor_ok_inv (target : ℚ) (runs : List Activity) (r : Option PRecord)
    (h : recordFor target runs = Except.ok r) :
    (r = none ∧ findBest target runs = none) ∨
    (∃ bt ba d, findBest target runs = some (bt, ba) ∧ ba.distance = some d ∧
      r = some { time_seconds := bt
                 time_formatted := format_time bt
                 pace := calculate_pace bt d
                 date := dateOf (ba.start_date_local.getD "")
                 activity_id := ba.id
                 activity_name := ba.name }) := by
  cases hfb : findBest target runs with
  | none =>
    rw [recordFor_eq_none _ _ hfb] at h
    injection h with h
    exact Or.inl ⟨h.symm, rfl⟩
  | some p =>
    obtain ⟨bt, ba⟩ := p
    cases hd : ba.distance with
    | none =>
      rw [recordFor_eq_error _ _ _ _ hfb hd] at h
      cases h
    | some d =>
      rw [recordFor_eq_rec _ _ _ _ _ hfb hd] at h
      injection h with h
      exact Or.inr ⟨bt, ba, d, ⟨hfb ▸ rfl, hd, h.symm⟩⟩

lemma recordFor_ok (target : ℚ) (ht : 0 < target) (runs : List Activity) :
    ∃ r, recordFor target runs = Except.ok r := by
  cases hfb : findBest target runs with
  | none => exact ⟨none, recordFor_eq_none _ _ hfb⟩
  | some p =>
    obtain ⟨bt, ba⟩ := p
    obtain ⟨-, hma, -, -⟩ := findBest_some_spec target runs bt ba hfb
    obtain ⟨d, hd⟩ := matchesA_distance_isSome target ht ba hma
    exact ⟨_, recordFor_eq_rec _ _ _ _ _ hfb hd⟩

lemma buildRecords_ok (runs : List Activity) :
    ∀ dl : List (String × ℚ), (∀ p ∈ dl, (0:ℚ) < p.2) →
      ∃ res, buildRecords runs dl = Except.ok res := by
  intro dl
  induction dl with
  | nil => intro _; exact ⟨[], rfl⟩
  | cons p rest ih =>
    intro hpos
    obtain ⟨k, t⟩ := p
    obtain ⟨r, hr⟩ := recordFor_ok t (hpos (k, t) (List.mem_cons_self _ _)) runs
    obtain ⟨res, hres⟩ := ih (fun q hq => hpos q (List.mem_cons_of_mem _ hq))
    refine ⟨(k, r) :: res, ?_⟩
    unfold buildRecords
    rw [hr, hres]



lemma DISTANCES_keys_nodup : (DISTANCES.map Prod.fst).Nodup := by
  with_unfolding_all decide

lemma buildRecords_lookup (runs : List Activity) :
    ∀ (dl : List (String × ℚ)) (res : List (String × Option PRecord)),
      buildRecords runs dl = Except.ok res →
      (dl.map Prod.fst).Nodup →
      ∀ k t, (k, t) ∈ dl →
      ∃ r, recordFor t runs = Except.ok r ∧ lookupKey res k = some r := by
  intro dl
  induction dl with
  | nil =>
    intro res _ _ k t hmem
    cases hmem
  | cons p rest ih =>
    intro res h hnd k t hmem
    obtain ⟨k0, t0⟩ := p
    cases hr0 : recordFor t0 runs with
    | error e =>
      unfold buildRecords at h
      rw [hr0] at h
      simp at h
    | ok r0 =>
      cases hrest : buildRecords runs rest with
      | error e =>
        unfold buildRecords at h
        rw [hr0, hrest] at h
        simp at h
      | ok res' =>
        unfold buildRecords at h
        rw [hr0, hrest] at h
        injection h with h
        subst h
        rcases List.mem_cons.mp hmem with heq | hmem'
        · injection heq with h1 h2
          subst h1
          subst h2
          refine ⟨r0, hr0, ?_⟩
          unfold lookupKey
          rw [if_pos rfl]
        · have hk : k ≠ k0 := by
            intro hkk
            subst hkk
            have hinmap : k ∈ rest.map Prod.fst :=
              List.mem_map_of_mem Prod.fst hmem'
            exact (List.nodup_cons.mp hnd).1 hinmap
          obtain ⟨r, hrr, hlk⟩ := ih res' hrest (List.nodup_cons.mp hnd).2 k t hmem'
          refine ⟨r, hrr, ?_⟩
          unfold lookupKey
          rw [if_neg hk]
          exact hlk

lemma buildRecords_map_fst (runs : List Activity) :
    ∀ (dl : List (String × ℚ)) (res : List (String × Option PRecord)),
      buildRecords runs dl = Except.ok res →
      res.map Prod.fst = dl.map Prod.fst := by
  intro dl
  induction dl with
  | nil =>
    intro res h
    injection h with h
    subst h
    rfl
  | cons p rest ih =>
    intro res h
    obtain ⟨k0, t0⟩ := p
    cases hr0 : recordFor t0 runs with
    | error e =>
      unfold buildRecords at h
      rw [hr0] at h
      simp at h
    | ok r0 =>
      cases hrest : buildRecords runs rest with
      | error e =>
        unfold buildRecords at h
        rw [hr0, hrest] at h
        simp at h
      | ok res' =>
        unfold buildRecords at h
        rw [hr0, hrest] at h
        injection h with h
        subst h
        simp only [List.map_cons]
        rw [ih res' hrest]



lemma mem_filter_isRun (activities : List Activity) (a : Activity) :
    a ∈ activities.filter isRun ↔ (a ∈ activities ∧ a.type = some "Run") := by
  rw [List.mem_filter]
  unfold isRun
  simp

lemma runs_matches_iff_qualifies (activities : List Activity) (target : ℚ) :
    (∀ a ∈ activities.filter isRun, ¬ matchesA target a) ↔
      (¬ ∃ a ∈ activities, qualifies target a) := by
  constructor
  · rintro h ⟨a, ha, hty, hma⟩
    exact h a ((mem_filter_isRun activities a).mpr ⟨ha, hty⟩) hma
  · intro h a ha hma
    obtain ⟨ha', hty⟩ := (mem_filter_isRun activities a).mp ha
    exact h ⟨a, ha', hty, hma⟩

/-- C9: `calculate_personal_records` never reaches its only failure point,
the direct `best_activity['distance']` index: it returns a result on every
input, because an activity with an absent `distance` field defaults to 0,
which never lies within 2% of any canonical target.
(`calculate_personal_records_from_best_efforts` is total by construction:
all its field accesses use defaults.) -/
theorem no_fatal_error :
    (∀ activities, ∃ res, calculate_personal_records activities = Except.ok res) ∧
    (∀ p ∈ DISTANCES, ∀ a : Activity, a.distance = none → ¬ matchesA p.2 a) := by
  constructor
  · intro activities
    unfold calculate_personal_records
    exact buildRecords_ok _ DISTANCES DISTANCES_pos
  · intro p hp a hd hma
    obtain ⟨d, hds⟩ := matchesA_distance_isSome p.2 (DISTANCES_pos p hp) a hma
    rw [hd] at hds
    cases hds

/-- C9 (witness): the theorem evaluated on the empty history and on an
activity with no distance field against the 1 km target. -/
theorem no_fatal_error_witness :
    (∃ res, calculate_personal_records [] = Except.ok res) ∧
    (("1km", (1000:ℚ)) ∈ DISTANCES ∧
      ¬ matchesA 1000 ({ distance := none } : Activity)) :=
  ⟨no_fatal_error.1 [],
   List.mem_cons_self _ _,
   no_fatal_error.2 ("1km", 1000) (List.mem_cons_self _ _) _ rfl⟩

/-- C1: for every activity list and canonical distance key, when
`calculate_personal_records` returns a record for that key its `time_seconds`
equals the minimum `moving_time` over all qualifying activities for that key
(runs with positive moving time within 2% of the target), and the key maps to
`none` exactly when no activity qualifies. -/
theorem pr_min_correct (activities : List Activity) (key : String) (target : ℚ)
    (res : List (String × Option PRecord))
    (hmem : (key, target) ∈ DISTANCES)
    (hres : calculate_personal_records activities = Except.ok res) :
    (lookupKey res key = some none ↔ ¬ ∃ a ∈ activities, qualifies target a) ∧
    (∀ r, lookupKey res key = some (some r) →
      (∃ a ∈ activities, qualifies target a ∧ a.moving_time.getD 0 = r.time_seconds) ∧
      (∀ a ∈ activities, qualifies target a → r.time_seconds ≤ a.moving_time.getD 0)) := by
  unfold calculate_personal_records at hres
  obtain ⟨r0, hr0, hlk⟩ :=
    buildRecords_lookup _ DISTANCES res hres DISTANCES_keys_nodup key target hmem
  constructor
  · rw [hlk]
    constructor
    · intro h
      injection h with h
      subst h
      rcases recordFor_ok_inv target _ none hr0 with ⟨-, hfb⟩ | ⟨bt, ba, d, -, -, hcon⟩
      · exact (runs_matches_iff_qualifies activities target).mp
          ((findBest_none_iff target _).mp hfb)
      · cases hcon
    · intro h
      have hfb : findBest target (activities.filter isRun) = none :=
        (findBest_none_iff target _).mpr
          ((runs_matches_iff_qualifies activities target).mpr h)
      rw [recordFor_eq_none _ _ hfb] at hr0
      injection hr0 with hr0
      rw [hr0]
  · intro r hr
    rw [hlk] at hr
    injection hr with hr
    subst hr
    rcases recordFor_ok_inv target _ _ hr0 with ⟨hcon, -⟩ | ⟨bt, ba, d, hfb, hd, hsome⟩
    · cases hcon
    · injection hsome with hsome
      subst hsome
      obtain ⟨hmemr, hma, hmt, hbound⟩ := findBest_some_spec target _ bt ba hfb
      obtain ⟨hmema, hty⟩ := (mem_filter_isRun activities ba).mp hmemr
      constructor
      · exact ⟨ba, hmema, ⟨hty, hma⟩, hmt⟩
      · intro a ha hq
        exact hbound a ((mem_filter_isRun activities a).mpr ⟨ha, hq.1⟩) hq.2



lemma findBest_time_perm (target : ℚ) {l l' : List Activity} (hp : l.Perm l') :
    (findBest target l).map Prod.fst = (findBest target l').map Prod.fst := by
  cases h : findBest target l with
  | none =>
    cases h' : findBest target l' with
    | none => rfl
    | some q =>
      obtain ⟨bt', ba'⟩ := q
      obtain ⟨hm', hma', -, -⟩ := findBest_some_spec target l' bt' ba' h'
      exact absurd hma' ((findBest_none_iff target l).mp h ba' (hp.mem_iff.mpr hm'))
  | some p =>
    obtain ⟨bt, ba⟩ := p
    obtain ⟨hm, hma, hmt, hbound⟩ := findBest_some_spec target l bt ba h
    cases h' : findBest target l' with
    | none =>
      exact absurd hma ((findBest_none_iff target l').mp h' ba (hp.mem_iff.mp hm))
    | some q =>
      obtain ⟨bt', ba'⟩ := q
      obtain ⟨hm', hma', hmt', hbound'⟩ := findBest_some_spec target l' bt' ba' h'
      have h1 : bt ≤ bt' := by
        rw [← hmt']
        exact hbound ba' (hp.mem_iff.mpr hm') hma'
      have h2 : bt' ≤ bt := by
        rw [← hmt]
        exact hbound' ba (hp.mem_iff.mp hm) hma
      show some bt = some bt'
      rw [le_antisymm h1 h2]

/-- C2 (amended): `calculate_personal_records` is deterministic - calling it
twice on the same input yields identical output - and the per-key best times
depend only on the multiset of qualifying activities (invariant under any
permutation of the input).  The full records are not permutation-invariant in
general, because ties on `moving_time` are broken by first-encountered
order. -/
theorem pr_idempotent_times_perm (activities activities' : List Activity)
    (hp : activities.Perm activities') :
    calculate_personal_records activities = calculate_personal_records activities ∧
    bestTimes activities = bestTimes activities' := by
  refine ⟨rfl, ?_⟩
  unfold bestTimes
  apply List.map_congr_left
  intro p _
  rw [findBest_time_perm p.2 (hp.filter isRun)]

/-- C2 (counterexample): two runs tied on `moving_time` but with different
names yield different outputs under the two orders of the same two-element
multiset, refuting order-independence of the full output as claimed. -/
theorem pr_order_counterexample :
    calculate_personal_records [wActTieA, wActTieB] = Except.ok (wResTie "A") ∧
    calculate_personal_records [wActTieB, wActTieA] = Except.ok (wResTie "B") ∧
    wResTie "A" ≠ wResTie "B" ∧
    List.Perm [wActTieA, wActTieB] [wActTieB, wActTieA] :=
  ⟨by with_unfolding_all rfl, by with_unfolding_all rfl, by decide,
   List.Perm.swap _ _ _⟩

/-- C2 (witness): the amended theorem evaluated at the swapped tie pair. -/
theorem pr_idempotent_times_perm_witness :
    List.Perm [wActTieA, wActTieB] [wActTieB, wActTieA] ∧
    (calculate_personal_records [wActTieA, wActTieB] =
        calculate_personal_records [wActTieA, wActTieB] ∧
      bestTimes [wActTieA, wActTieB] = bestTimes [wActTieB, wActTieA]) :=
  ⟨List.Perm.swap _ _ _,
   pr_idempotent_times_perm _ _ (List.Perm.swap _ _ _)⟩

/-- C7: for every canonical distance, a Run with positive moving time whose
distance is exactly `target * 1.02` meters qualifies (the 2% tolerance
comparison is non-strict), while one at `target * 1.021` meters does not. -/
theorem tolerance_boundary (key : String) (target : ℚ) (m : Int)
    (hmem : (key, target) ∈ DISTANCES) (hm : 0 < m) :
    qualifies target
      { type := some "Run", distance := some (target * 1.02), moving_time := some m } ∧
    ¬ qualifies target
      { type := some "Run", distance := some (target * 1.021), moving_time := some m } := by
  have ht : (0:ℚ) < target := DISTANCES_pos _ hmem
  constructor
  · refine ⟨rfl, ?_, by simpa using hm⟩
    show |(some (target * 1.02)).getD 0 - target| ≤ target * DISTANCE_TOLERANCE
    simp only [Option.getD]
    have heq : target * 1.02 - target = target * 0.02 := by ring
    rw [heq, abs_of_nonneg (by positivity), DISTANCE_TOLERANCE]
  · rintro ⟨-, habs, -⟩
    simp only [Option.getD] at habs
    have heq : target * 1.021 - target = target * 0.021 := by ring
    rw [heq, abs_of_nonneg (by positivity), DISTANCE_TOLERANCE] at habs
    nlinarith

/-- C7 (witness): the theorem evaluated at the 5 km target with a 600 s
moving time. -/
theorem tolerance_boundary_witness :
    (("5km", (5000:ℚ)) ∈ DISTANCES ∧ (0:Int) < 600) ∧
    (qualifies 5000
      { type := some "Run", distance := some (5000 * 1.02), moving_time := some 600 } ∧
    ¬ qualifies 5000
      { type := some "Run", distance := some (5000 * 1.021), moving_time := some 600 }) :=
  ⟨⟨List.mem_cons_of_mem _ (List.mem_cons_self _ _), by decide⟩,
   tolerance_boundary "5km" 5000 600
     (List.mem_cons_of_mem _ (List.mem_cons_self _ _)) (by decide)⟩



/-- C1 (witness): the theorem evaluated on a single qualifying 5 km run. -/
theorem pr_min_correct_witness :
    (("5km", (5000:ℚ)) ∈ DISTANCES ∧
      calculate_personal_records [wAct5k] = Except.ok wRes5) ∧
    ((lookupKey wRes5 "5km" = some none ↔ ¬ ∃ a ∈ [wAct5k], qualifies 5000 a) ∧
     (∀ r, lookupKey wRes5 "5km" = some (some r) →
       (∃ a ∈ [wAct5k], qualifies 5000 a ∧ a.moving_time.getD 0 = r.time_seconds) ∧
       (∀ a ∈ [wAct5k], qualifies 5000 a → r.time_seconds ≤ a.moving_time.getD 0))) :=
  ⟨⟨List.mem_cons_of_mem _ (List.mem_cons_self _ _), by with_unfolding_all rfl⟩,
   pr_min_correct [wAct5k] "5km" 5000 wRes5
     (List.mem_cons_of_mem _ (List.mem_cons_self _ _)) (by with_unfolding_all rfl)⟩

lemma lookupKey_setKey_self {β : Type} :
    ∀ (m : List (String × β)) (k : String) (v : β) (x : β),
      lookupKey m k = some x → lookupKey (setKey m k v) k = some v := by
  intro m
  induction m with
  | nil => intro k v x h; cases h
  | cons p rest ih =>
    intro k v x h
    by_cases hk : p.1 = k
    · unfold setKey
      simp only [List.map_cons]
      rw [if_pos hk]
      unfold lookupKey
      rw [if_pos rfl]
    · unfold setKey
      simp only [List.map_cons]
      rw [if_neg hk]
      unfold lookupKey
      rw [if_neg (fun hkk => hk hkk.symm)]
      unfold lookupKey at h
      rw [if_neg (fun hkk => hk hkk.symm)] at h
      exact ih k v x h

lemma lookupKey_setKey_ne {β : Type} :
    ∀ (m : List (String × β)) (k k' : String) (v : β), k' ≠ k →
      lookupKey (setKey m k v) k' = lookupKey m k' := by
  intro m
  induction m with
  | nil => intro k k' v _; rfl
  | cons p rest ih =>
    intro k k' v hne
    by_cases hk : p.1 = k
    · unfold setKey
      simp only [List.map_cons]
      rw [if_pos hk]
      unfold lookupKey
      rw [if_neg hne, if_neg (fun h => hne (h.trans hk))]
      exact ih k k' v hne
    · unfold setKey
      simp only [List.map_cons]
      rw [if_neg hk]
      unfold lookupKey
      by_cases hk' : k' = p.1
      · rw [if_pos hk', if_pos hk']
      · rw [if_neg hk', if_neg hk']
        exact ih k k' v hne

lemma setKey_map_fst {β : Type} (m : List (String × β)) (k : String) (v : β) :
    (setKey m k v).map Prod.fst = m.map Prod.fst := by
  unfold setKey
  rw [List.map_map]
  apply List.map_congr_left
  intro p _
  by_cases h : p.1 = k
  · simp [h]
  · simp [h]



lemma stepEffort_eq_nokey (m : List (String × Option BERecord)) (e : Effort)
    (h : effortKey e = none) : stepEffort m e = m := by
  unfold stepEffort
  rw [h]

lemma stepEffort_some_key (m : List (String × Option BERecord)) (e : Effort) (k : String)
    (h : effortKey e = some k) :
    stepEffort m e =
      (if 0 < e.moving_time.getD 0 then
        match lookupKey m k with
        | some (some current_best) =>
          if e.moving_time.getD 0 < current_best.time_seconds then
            setKey m k (some (mkEffortRecord (e.name.getD "") (e.moving_time.getD 0) e))
          else m
        | some none =>
          setKey m k (some (mkEffortRecord (e.name.getD "") (e.moving_time.getD 0) e))
        | none => m
      else m) := by
  unfold stepEffort
  rw [h]

lemma stepEffort_eq_nomt (m : List (String × Option BERecord)) (e : Effort) (k : String)
    (h : effortKey e = some k) (hmt : ¬ 0 < e.moving_time.getD 0) :
    stepEffort m e = m := by
  rw [stepEffort_some_key m e k h, if_neg hmt]

lemma stepEffort_eq_missing (m : List (String × Option BERecord)) (e : Effort) (k : String)
    (h : effortKey e = some k) (hmt : 0 < e.moving_time.getD 0)
    (hlk : lookupKey m k = none) : stepEffort m e = m := by
  rw [stepEffort_some_key m e k h, if_pos hmt, hlk]

lemma stepEffort_eq_first (m : List (String × Option BERecord)) (e : Effort) (k : String)
    (h : effortKey e = some k) (hmt : 0 < e.moving_time.getD 0)
    (hlk : lookupKey m k = some none) :
    stepEffort m e =
      setKey m k (some (mkEffortRecord (e.name.getD "") (e.moving_time.getD 0) e)) := by
  rw [stepEffort_some_key m e k h, if_pos hmt, hlk]

lemma stepEffort_eq_better (m : List (String × Option BERecord)) (e : Effort) (k : String)
    (cb : BERecord) (h : effortKey e = some k) (hmt : 0 < e.moving_time.getD 0)
    (hlk : lookupKey m k = some (some cb))
    (hlt : e.moving_time.getD 0 < cb.time_seconds) :
    stepEffort m e =
      setKey m k (some (mkEffortRecord (e.name.getD "") (e.moving_time.getD 0) e)) := by
  rw [stepEffort_some_key m e k h, if_pos hmt, hlk]
  show (if e.moving_time.getD 0 < cb.time_seconds then
      setKey m k (some (mkEffortRecord (e.name.getD "") (e.moving_time.getD 0) e))
    else m) = _
  rw [if_pos hlt]

lemma stepEffort_eq_worse (m : List (String × Option BERecord)) (e : Effort) (k : String)
    (cb : BERecord) (h : effortKey e = some k) (hmt : 0 < e.moving_time.getD 0)
    (hlk : lookupKey m k = some (some cb))
    (hlt : ¬ e.moving_time.getD 0 < cb.time_seconds) :
    stepEffort m e = m := by
  rw [stepEffort_some_key m e k h, if_pos hmt, hlk]
  show (if e.moving_time.getD 0 < cb.time_seconds then
      setKey m k (some (mkEffortRecord (e.name.getD "") (e.moving_time.getD 0) e))
    else m) = _
  rw [if_neg hlt]



lemma stepEffort_lookup_of_not_qual (m : List (String × Option BERecord)) (e : Effort)
    (k : String) (h : ¬ qualEffort k e) :
    lookupKey (stepEffort m e) k = lookupKey m k := by
  cases he : effortKey e with
  | none => rw [stepEffort_eq_nokey m e he]
  | some k' =>
    by_cases hmt : 0 < e.moving_time.getD 0
    · have hne : k ≠ k' := by
        intro hkk
        subst hkk
        exact h ⟨he, hmt⟩
      cases hlk : lookupKey m k' with
      | none => rw [stepEffort_eq_missing m e k' he hmt hlk]
      | some cur =>
        cases cur with
        | none =>
          rw [stepEffort_eq_first m e k' he hmt hlk]
          exact lookupKey_setKey_ne m k' k _ hne
        | some cb =>
          by_cases hlt : e.moving_time.getD 0 < cb.time_seconds
          · rw [stepEffort_eq_better m e k' cb he hmt hlk hlt]
            exact lookupKey_setKey_ne m k' k _ hne
          · rw [stepEffort_eq_worse m e k' cb he hmt hlk hlt]
    · rw [stepEffort_eq_nomt m e k' he hmt]

lemma stepEffort_at_key (m : List (String × Option BERecord)) (e : Effort) (k : String)
    (cur : Option BERecord) (he : effortKey e = some k)
    (hmt : 0 < e.moving_time.getD 0) (hcur : lookupKey m k = some cur) :
    ∃ r', lookupKey (stepEffort m e) k = some (some r') ∧
      r'.time_seconds ≤ e.moving_time.getD 0 ∧
      (∀ r0, cur = some r0 → r'.time_seconds ≤ r0.time_seconds) ∧
      (cur = some r' ∨ r' = mkEffortRecord (e.name.getD "") (e.moving_time.getD 0) e) := by
  cases cur with
  | none =>
    rw [stepEffort_eq_first m e k he hmt hcur]
    refine ⟨mkEffortRecord (e.name.getD "") (e.moving_time.getD 0) e,
      lookupKey_setKey_self m k _ _ hcur, le_refl _, ?_, Or.inr rfl⟩
    intro r0 h0
    cases h0
  | some cb =>
    by_cases hlt : e.moving_time.getD 0 < cb.time_seconds
    · rw [stepEffort_eq_better m e k cb he hmt hcur hlt]
      refine ⟨mkEffortRecord (e.name.getD "") (e.moving_time.getD 0) e,
        lookupKey_setKey_self m k _ _ hcur, le_refl _, ?_, Or.inr rfl⟩
      intro r0 h0
      injection h0 with h0
      subst h0
      exact le_of_lt hlt
    · rw [stepEffort_eq_worse m e k cb he hmt hcur hlt]
      refine ⟨cb, hcur, not_lt.mp hlt, ?_, Or.inl rfl⟩
      intro r0 h0
      injection h0 with h0
      subst h0
      exact le_refl _

lemma foldEffort_none (k : String) :
    ∀ (es : List Effort) (m : List (String × Option BERecord)) (cur : Option BERecord),
      lookupKey m k = some cur →
      (lookupKey (es.foldl stepEffort m) k = some none ↔
        (cur = none ∧ ∀ e ∈ es, ¬ qualEffort k e)) := by
  intro es
  induction es with
  | nil =>
    intro m cur hcur
    simp only [List.foldl_nil]
    rw [hcur]
    constructor
    · intro h
      injection h with h
      exact ⟨h, by intro e he; cases he⟩
    · rintro ⟨h, -⟩
      rw [h]
  | cons e t ih =>
    intro m cur hcur
    rw [List.foldl_cons]
    by_cases hq : qualEffort k e
    · obtain ⟨he, hmt⟩ := hq
      obtain ⟨r', hlk', -, -, -⟩ := stepEffort_at_key m e k cur he hmt hcur
      rw [ih (stepEffort m e) (some r') hlk']
      constructor
      · rintro ⟨hcon, -⟩
        cases hcon
      · rintro ⟨-, hall⟩
        exact absurd ⟨he, hmt⟩ (hall e (List.mem_cons_self _ _))
    · have hlk' : lookupKey (stepEffort m e) k = some cur := by
        rw [stepEffort_lookup_of_not_qual m e k hq, hcur]
      rw [ih (stepEffort m e) cur hlk']
      constructor
      · rintro ⟨h1, h2⟩
        refine ⟨h1, ?_⟩
        intro e' he'
        rcases List.mem_cons.mp he' with rfl | he''
        · exact hq
        · exact h2 e' he''
      · rintro ⟨h1, h2⟩
        exact ⟨h1, fun e' he' => h2 e' (List.mem_cons_of_mem _ he')⟩

lemma foldEffort_min (k : String) :
    ∀ (es : List Effort) (m : List (String × Option BERecord)) (cur : Option BERecord)
      (r : BERecord),
      lookupKey m k = some cur →
      lookupKey (es.foldl stepEffort m) k = some (some r) →
      ((cur = some r) ∨ (∃ e ∈ es, qualEffort k e ∧ e.moving_time.getD 0 = r.time_seconds)) ∧
      (∀ e ∈ es, qualEffort k e → r.time_seconds ≤ e.moving_time.getD 0) ∧
      (∀ r0, cur = some r0 → r.time_seconds ≤ r0.time_seconds) := by
  intro es
  induction es with
  | nil =>
    intro m cur r hcur h
    simp only [List.foldl_nil] at h
    rw [hcur] at h
    injection h with h
    refine ⟨Or.inl h, ?_, ?_⟩
    · intro e' he'
      cases he'
    · intro r0 h0
      rw [h] at h0
      injection h0 with h0
      rw [h0]
  | cons e t ih =>
    intro m cur r hcur h
    rw [List.foldl_cons] at h
    by_cases hq : qualEffort k e
    · obtain ⟨he, hmt⟩ := hq
      obtain ⟨r', hlk', hle', hcurb, hor⟩ := stepEffort_at_key m e k cur he hmt hcur
      obtain ⟨horig, hbound, haccb⟩ := ih (stepEffort m e) (some r') r hlk' h
      have hrr' : r.time_seconds ≤ r'.time_seconds := haccb r' rfl
      refine ⟨?_, ?_, ?_⟩
      · rcases horig with h' | ⟨e', he'', hq', hmt'⟩
        · injection h' with h'
          subst h'
          rcases hor with hacc | hmk
          · exact Or.inl hacc
          · refine Or.inr ⟨e, List.mem_cons_self _ _, ⟨he, hmt⟩, ?_⟩
            rw [hmk]
            rfl
        · exact Or.inr ⟨e', List.mem_cons_of_mem _ he'', hq', hmt'⟩
      · intro e' he' hq'
        rcases List.mem_cons.mp he' with rfl | he''
        · exact le_trans hrr' hle'
        · exact hbound e' he'' hq'
      · intro r0 h0
        exact le_trans hrr' (hcurb r0 h0)
    · have hlk' : lookupKey (stepEffort m e) k = some cur := by
        rw [stepEffort_lookup_of_not_qual m e k hq, hcur]
      obtain ⟨horig, hbound, haccb⟩ := ih (stepEffort m e) cur r hlk' h
      refine ⟨?_, ?_, haccb⟩
      · rcases horig with h' | ⟨e', he'', hq', hmt'⟩
        · exact Or.inl h'
        · exact Or.inr ⟨e', List.mem_cons_of_mem _ he'', hq', hmt'⟩
      · intro e' he' hq'
        rcases List.mem_cons.mp he' with rfl | he''
        · exact absurd hq' hq
        · exact hbound e' he'' hq'



lemma initRecords_lookup (k : String) (hk : k ∈ DISTANCE_MAPPING.map Prod.snd) :
    lookupKey initRecords k = some none := by
  simp [DISTANCE_MAPPING] at hk
  rcases hk with rfl | rfl | rfl | rfl | rfl <;> rfl

lemma stepEffort_excluded (m : List (String × Option BERecord)) (e : Effort)
    (h : keepEffort e = false) : stepEffort m e = m := by
  cases he : effortKey e with
  | none => exact stepEffort_eq_nokey m e he
  | some k =>
    unfold keepEffort at h
    rw [he] at h
    simp at h
    exact stepEffort_eq_nomt m e k he (by simpa using h)

lemma foldl_filter_keepEffort :
    ∀ (es : List Effort) (m : List (String × Option BERecord)),
      es.foldl stepEffort m = (es.filter keepEffort).foldl stepEffort m := by
  intro es
  induction es with
  | nil => intro m; rfl
  | cons e t ih =>
    intro m
    rw [List.foldl_cons]
    cases hke : keepEffort e with
    | true =>
      rw [List.filter_cons_of_pos hke, List.foldl_cons]
      exact ih (stepEffort m e)
    | false =>
      rw [List.filter_cons_of_neg (by simp [hke]), stepEffort_excluded m e hke]
      exact ih m

lemma stepEffort_map_fst (m : List (String × Option BERecord)) (e : Effort) :
    (stepEffort m e).map Prod.fst = m.map Prod.fst := by
  cases he : effortKey e with
  | none => rw [stepEffort_eq_nokey m e he]
  | some k =>
    by_cases hmt : 0 < e.moving_time.getD 0
    · cases hlk : lookupKey m k with
      | none => rw [stepEffort_eq_missing m e k he hmt hlk]
      | some cur =>
        cases cur with
        | none =>
          rw [stepEffort_eq_first m e k he hmt hlk]
          exact setKey_map_fst m k _
        | some cb =>
          by_cases hlt : e.moving_time.getD 0 < cb.time_seconds
          · rw [stepEffort_eq_better m e k cb he hmt hlk hlt]
            exact setKey_map_fst m k _
          · rw [stepEffort_eq_worse m e k cb he hmt hlk hlt]
    · rw [stepEffort_eq_nomt m e k he hmt]

lemma foldEffort_map_fst :
    ∀ (es : List Effort) (m : List (String × Option BERecord)),
      (es.foldl stepEffort m).map Prod.fst = m.map Prod.fst := by
  intro es
  induction es with
  | nil => intro m; rfl
  | cons e t ih =>
    intro m
    rw [List.foldl_cons, ih (stepEffort m e), stepEffort_map_fst m e]

/-- C8: `calculate_personal_records_from_best_efforts` is unchanged by
deleting entries whose label is not in `DISTANCE_MAPPING` or whose moving
time is not positive (excluded entries never influence the output), and for
each mapped key the returned record carries the minimum `moving_time` among
qualifying entries, `none` exactly when no entry qualifies. -/
theorem best_efforts_min (groups : List (List Effort)) (k : String)
    (hk : k ∈ DISTANCE_MAPPING.map Prod.snd) :
    (calculate_personal_records_from_best_efforts groups =
      ((flattenGroups groups).filter keepEffort).foldl stepEffort initRecords) ∧
    (lookupKey (calculate_personal_records_from_best_efforts groups) k = some none ↔
      ¬ ∃ e ∈ flattenGroups groups, qualEffort k e) ∧
    (∀ r, lookupKey (calculate_personal_records_from_best_efforts groups) k = some (some r) →
      (∃ e ∈ flattenGroups groups, qualEffort k e ∧ e.moving_time.getD 0 = r.time_seconds) ∧
      (∀ e ∈ flattenGroups groups, qualEffort k e → r.time_seconds ≤ e.moving_time.getD 0)) := by
  have hinit := initRecords_lookup k hk
  refine ⟨foldl_filter_keepEffort _ _, ?_, ?_⟩
  · unfold calculate_personal_records_from_best_efforts
    rw [foldEffort_none k (flattenGroups groups) initRecords none hinit]
    constructor
    · rintro ⟨-, hall⟩ ⟨e, he, hq⟩
      exact hall e he hq
    · intro h
      exact ⟨rfl, fun e he hq => h ⟨e, he, hq⟩⟩
  · intro r hr
    unfold calculate_personal_records_from_best_efforts at hr
    obtain ⟨horig, hbound, -⟩ :=
      foldEffort_min k (flattenGroups groups) initRecords none r hinit hr
    rcases horig with hcon | ⟨e, he, hq, hmt⟩
    · cases hcon
    · exact ⟨⟨e, he, hq, hmt⟩, hbound⟩

/-- C10: for every input - including the empty list - both derivations
return a map whose key list is exactly the five canonical distance keys, in
insertion order. -/
theorem keys_invariant :
    (∀ activities res, calculate_personal_records activities = Except.ok res →
      res.map Prod.fst = ["1km", "5km", "10km", "half_marathon", "marathon"]) ∧
    (∀ groups, (calculate_personal_records_from_best_efforts groups).map Prod.fst =
      ["1km", "5km", "10km", "half_marathon", "marathon"]) := by
  constructor
  · intro activities res h
    unfold calculate_personal_records at h
    rw [buildRecords_map_fst _ DISTANCES res h]
    rfl
  · intro groups
    unfold calculate_personal_records_from_best_efforts
    rw [foldEffort_map_fst]
    rfl



/-- C6 (witness): updating `max_hr` to 180 and reading the profile back shows
`hr_zones` recomputed from 180. -/
theorem update_hr_params_witness :
    (get_settings (update_hr_params (fun _ => none) "u" (some 180) none none).2 "u").hr_zones =
      some (calculate_zones 180) := by
  have h := update_hr_params_contract (fun _ => none) "u" (some 180) none none
  rw [h.1]
  exact h.2.2.2.2.2.2.2.1 180 (h.2.2.1 180 rfl)

/-- C8 (witness): the theorem evaluated on a single recognized 5k split. -/
theorem best_efforts_min_witness :
    ("5km" ∈ DISTANCE_MAPPING.map Prod.snd) ∧
    ((calculate_personal_records_from_best_efforts [[wEff5k]] =
        ((flattenGroups [[wEff5k]]).filter keepEffort).foldl stepEffort initRecords) ∧
     (lookupKey (calculate_personal_records_from_best_efforts [[wEff5k]]) "5km" = some none ↔
       ¬ ∃ e ∈ flattenGroups [[wEff5k]], qualEffort "5km" e) ∧
     (∀ r, lookupKey (calculate_personal_records_from_best_efforts [[wEff5k]]) "5km" =
         some (some r) →
       (∃ e ∈ flattenGroups [[wEff5k]], qualEffort "5km" e ∧
         e.moving_time.getD 0 = r.time_seconds) ∧
       (∀ e ∈ flattenGroups [[wEff5k]], qualEffort "5km" e →
         r.time_seconds ≤ e.moving_time.getD 0))) :=
  ⟨by decide, best_efforts_min [[wEff5k]] "5km" (by decide)⟩

/-- C10 (witness): both derivations on empty input produce exactly the five
canonical keys. -/
theorem keys_invariant_witness :
    calculate_personal_records [] = Except.ok wResEmpty ∧
    wResEmpty.map Prod.fst = ["1km", "5km", "10km", "half_marathon", "marathon"] ∧
    (calculate_personal_records_from_best_efforts []).map Prod.fst =
      ["1km", "5km", "10km", "half_marathon", "marathon"] :=
  ⟨by with_unfolding_all rfl,
   keys_invariant.1 [] wResEmpty (by with_unfolding_all rfl),
   keys_invariant.2 []⟩

end RunningCoach
